import Mathlib

/-!
Shallow embedding of the probe engine of `monitor.py` (class `PingTester`),
faithful to the source:

* `test_single_config` (monitor.py lines 173-281): reads the config, patches
  the `socks`/`api` inbound ports with a random port pair, writes a scratch
  config file, starts the proxy process, issues one HTTP request through the
  SOCKS port, classifies the outcome, terminates the process (graceful wait
  of 5 s, then kill) and deletes the scratch file, returning a delay in ms.
  Any exception escaping to the outer handler returns the sentinel 9999.
* `run_tests` (lines 283-339): sweeps the manifest sequentially; a missing
  config file is skipped with `continue`; each probed entry's result is
  upserted into the global result dict keyed by the config name and the full
  dict is persisted via `save_results` after every probe.
* `save_results` (lines 341-357): writes `last_update`, `total_configs =
  len(results)` and the result map; its own exceptions are swallowed.
* the inter-sweep sleep loop of `_run_loop` (lines 381-384): a 1-second
  sleep-and-check loop over `range(test_interval)`.

The nondeterministic environment of one probe attempt (whether the config
file parses, whether the process spawns, the HTTP outcome with its measured
elapsed time, the random port draw, whether graceful termination succeeds)
is an explicit `AttemptEnv`.  Observable side effects (scratch-file write
and delete, process launch and termination, the HTTP request) are recorded
in an event trace.
-/

namespace XrayPulse

/-- One inbound listener of the Xray JSON config: only its `tag` and `port`
are relevant to the port-patching loop of `test_single_config`. -/
structure Inbound where
  tag : String
  port : Nat
deriving DecidableEq, Repr

/-- `random.randint(20000, 30000)` (monitor.py line 185): both endpoints
inclusive, so a draw `d` maps to `20000 + d % 10001`. -/
def pick_test_port (draw : Nat) : Nat :=
  20000 + draw % 10001

/-- The port-patching loop of monitor.py lines 188-192: the inbound tagged
`socks` gets `test_port`, the inbound tagged `api` gets `test_port + 1`,
every other inbound is untouched. -/
def patch_inbounds (inbounds : List Inbound) (test_port : Nat) : List Inbound :=
  inbounds.map fun ib =>
    if ib.tag = "socks" then { ib with port := test_port }
    else if ib.tag = "api" then { ib with port := test_port + 1 }
    else ib

/-- The fixed beacon target of the probe request (monitor.py line 221). -/
def beacon_url : String := "http://gstatic.com/generate_204"

/-- The probe request timeout in seconds (monitor.py line 223). -/
def probe_timeout_s : Nat := 10

/-- Outcome of the single `requests.get` call through the proxy: either a
response with a status code, measured `(time.time() - start_time) * 1000`
milliseconds after `start_time`, or an exception (timeout, connection
failure, ...) caught by the inner handler at monitor.py line 233. -/
inductive HttpOutcome where
  | resp (code : Nat) (elapsedMs : ℚ)
  | exc
deriving DecidableEq, Repr

/-- Environment of one probe attempt: which fallible steps succeed and what
the network returns.  `readOk = false` models `json.load` raising (config
file unreadable); `spawnOk = false` models `subprocess.Popen` raising
(binary missing / spawn error); both are caught only by the outer handler
at monitor.py line 279.  `gracefulExit` tells whether `process.wait(5)`
returns before the timeout (line 267) or `process.kill()` is needed. -/
structure AttemptEnv where
  readOk : Bool
  inbounds : List Inbound
  draw : Nat
  spawnOk : Bool
  http : HttpOutcome
  gracefulExit : Bool
deriving DecidableEq, Repr

/-- Observable events of one probe attempt, in program order. -/
inductive Event where
  | tmpWrite
  | launch (port : Nat)
  | probe (port : Nat) (url : String)
  | termGrace
  | termKill
  | tmpDelete
deriving DecidableEq, Repr

/-- Result of one probe attempt: the returned delay, the event trace, and
whether the child process is still alive / the scratch config file still
exists when `test_single_config` returns. -/
structure AttemptResult where
  delay : ℚ
  trace : List Event
  procAlive : Bool
  tmpExists : Bool
deriving DecidableEq, Repr

/-- Classification of the HTTP outcome (monitor.py lines 226-235): a
response with status code in `[204, 200]` yields the measured elapsed
milliseconds, any other status code or any exception yields the sentinel
9999. -/
def probe_delay (o : HttpOutcome) : ℚ :=
  match o with
  | .resp code elapsedMs => if code = 204 ∨ code = 200 then elapsedMs else 9999
  | .exc => 9999

/-- `PingTester.test_single_config` (monitor.py lines 173-281).

Control flow of the source: the outer `try` covers the whole body and its
`except` returns 9999; inside it the config is read (`readOk`), the ports
are patched, the scratch config is written, the process is started
(`spawnOk`), the probe request runs under the inner `try`/`except`, and
then — on this straight-line path only — the process is terminated
(graceful `wait(5)`, else `kill`) and the scratch file unlinked.  The
terminate/unlink block is *not* a `finally`: an exception at `Popen`
reaches the outer handler with the scratch file already written. -/
def test_single_config (env : AttemptEnv) : AttemptResult :=
  if env.readOk = false then
    -- json.load raised before any side effect: outer except returns 9999
    { delay := 9999, trace := [], procAlive := false, tmpExists := false }
  else
    let test_port := pick_test_port env.draw
    let _patched := patch_inbounds env.inbounds test_port
    if env.spawnOk = false then
      -- scratch file written, Popen raised: outer except returns 9999,
      -- the scratch file is never deleted
      { delay := 9999, trace := [Event.tmpWrite], procAlive := false, tmpExists := true }
    else
      let delay := probe_delay env.http
      let termEvents := if env.gracefulExit then [Event.termGrace] else [Event.termKill]
      { delay := delay
        trace := [Event.tmpWrite, Event.launch test_port, Event.probe test_port beacon_url]
                   ++ termEvents ++ [Event.tmpDelete]
        procAlive := false
        tmpExists := false }

/-- A stored probe result: `{"delay": ..., "timestamp": ..., "status": ...}`
(monitor.py lines 321-325). -/
structure ProbeResult where
  delay : ℚ
  timestamp : String
  status : String
deriving DecidableEq, Repr

/-- Building the stored record (monitor.py lines 321-325): status is
`"online"` iff `delay < 9999`, else `"offline"`. -/
def mk_result (ts : String) (delay : ℚ) : ProbeResult :=
  { delay := delay, timestamp := ts
    status := if delay < 9999 then "online" else "offline" }

/-- The result store: a Python dict keyed by config name, modelled as an
insertion-ordered association list with unique keys. -/
abbrev Store := List (String × ProbeResult)

/-- Dict assignment `self.results[config_name] = ...`: overwrite the entry
in place if the key exists, append otherwise. -/
def upsert : Store → String → ProbeResult → Store
  | [], k, v => [(k, v)]
  | p :: rest, k, v => if p.1 = k then (k, v) :: rest else p :: upsert rest k v

/-- Dict lookup. -/
def lookupStore : Store → String → Option ProbeResult
  | [], _ => none
  | p :: rest, k => if p.1 = k then some p.2 else lookupStore rest k

/-- The persisted snapshot of `save_results` (monitor.py lines 345-349). -/
structure Snapshot where
  last_update : String
  total_configs : Nat
  results : Store
deriving DecidableEq, Repr

/-- `PingTester.save_results` (monitor.py lines 341-357): serialize
`last_update`, `total_configs = len(self.results)` and the full result map,
overwriting the snapshot file; a write failure (`persistOk = false`) is
caught and logged, leaving the snapshot history unchanged.  We record the
sequence of successfully persisted snapshots. -/
def save_results (ts : String) (results : Store) (persistOk : Bool)
    (snaps : List Snapshot) : List Snapshot :=
  if persistOk then
    snaps ++ [{ last_update := ts, total_configs := results.length, results := results }]
  else
    snaps

/-- One manifest entry of the sweep of `run_tests`: an item of
`config_list.json` (`config_id → config_name`), together with its slice of
the environment: whether `config_{id}.json` exists on disk, the attempt
environment, and whether this iteration's `save_results` write succeeds. -/
structure SweepEntry where
  id : String
  name : String
  fileExists : Bool
  env : AttemptEnv
  persistOk : Bool
deriving DecidableEq, Repr

/-- State threaded through the sweep loop: the global result dict
`self.results`, the persisted snapshot history, and the concatenated event
trace of all probe attempts. -/
structure SweepState where
  results : Store
  snapshots : List Snapshot
  trace : List Event
deriving DecidableEq, Repr

/-- The sweep loop body of `PingTester.run_tests` (monitor.py lines
305-334): for each entry, if the config file does not exist, log and
`continue` (nothing recorded, nothing persisted); else run
`test_single_config`, store the result under the config name, and persist
the full map. -/
def run_tests_go (ts : String) : List SweepEntry → SweepState → SweepState
  | [], st => st
  | e :: rest, st =>
    if e.fileExists = false then
      run_tests_go ts rest st
    else
      let ar := test_single_config e.env
      let r := mk_result ts ar.delay
      let results := upsert st.results e.name r
      let snaps := save_results ts results e.persistOk st.snapshots
      run_tests_go ts rest
        { results := results, snapshots := snaps, trace := st.trace ++ ar.trace }

/-- `PingTester.run_tests` over a manifest, from a given sweep state. -/
def run_tests (ts : String) (entries : List SweepEntry) (st : SweepState) : SweepState :=
  run_tests_go ts entries st

/-- The initial state of a fresh `PingTester` (`self.results = {}`). -/
def initState : SweepState :=
  { results := [], snapshots := [], trace := [] }

/-- Iterated sweeps over the same manifest, as `_run_loop` performs between
sleeps (monitor.py lines 374-388; `config_list.json` is written once at
startup and re-read unchanged each sweep). -/
def run_sweeps (ts : String) (entries : List SweepEntry) : Nat → SweepState → SweepState
  | 0, st => st
  | n + 1, st => run_sweeps ts entries n (run_tests ts entries st)

/-- The inter-sweep sleep loop of `_run_loop` (monitor.py lines 381-384):
`for _ in range(interval): if not self.running: break; time.sleep(1)`.
`running t` is the value of `self.running` observed by the check preceding
the `t`-th one-second sleep; the function returns the number of one-second
ticks actually slept. -/
def sleep_ticks : Nat → Nat → (Nat → Bool) → Nat
  | 0, _, _ => 0
  | n + 1, t, running =>
    if running t then sleep_ticks n (t + 1) running + 1 else 0

/-- Is this event the HTTP probe request? -/
def isProbeEvent : Event → Bool
  | .probe _ _ => true
  | _ => false

/-- Is this event a process launch? -/
def isLaunchEvent : Event → Bool
  | .launch _ => true
  | _ => false

/-- Is this event a process termination (graceful or kill)? -/
def isTermEvent : Event → Bool
  | .termGrace => true
  | .termKill => true
  | _ => false

/-! ### Basic facts about one probe attempt -/

theorem delay_of_ok (env : AttemptEnv) (h1 : env.readOk = true)
    (h2 : env.spawnOk = true) :
    (test_single_config env).delay = probe_delay env.http := by
  simp [test_single_config, h1, h2]

theorem trace_of_ok (env : AttemptEnv) (h1 : env.readOk = true)
    (h2 : env.spawnOk = true) :
    (test_single_config env).trace =
      [Event.tmpWrite, Event.launch (pick_test_port env.draw),
        Event.probe (pick_test_port env.draw) beacon_url]
        ++ (if env.gracefulExit then [Event.termGrace] else [Event.termKill])
        ++ [Event.tmpDelete] := by
  simp [test_single_config, h1, h2]

theorem delay_of_fail (env : AttemptEnv)
    (h : env.readOk = false ∨ env.spawnOk = false) :
    (test_single_config env).delay = 9999 := by
  rcases env with ⟨ro, ib, d, so, http, g⟩
  cases ro <;> cases so <;> simp_all [test_single_config]

theorem procAlive_false (env : AttemptEnv) :
    (test_single_config env).procAlive = false := by
  rcases env with ⟨ro, ib, d, so, http, g⟩
  cases ro <;> cases so <;> simp [test_single_config]

theorem tmpExists_eq (env : AttemptEnv) :
    (test_single_config env).tmpExists = (env.readOk && !env.spawnOk) := by
  rcases env with ⟨ro, ib, d, so, http, g⟩
  cases ro <;> cases so <;> simp [test_single_config]

theorem status_online_iff (ts : String) (delay : ℚ) :
    (mk_result ts delay).status = "online" ↔ delay < 9999 := by
  simp only [mk_result]
  split
  · next h => simp [h]
  · next h =>
    constructor
    · intro he; exact absurd he (by decide)
    · intro hlt; exact absurd hlt h

theorem status_offline_iff (ts : String) (delay : ℚ) :
    (mk_result ts delay).status = "offline" ↔ 9999 ≤ delay := by
  simp only [mk_result]
  split
  · next h =>
    constructor
    · intro he; exact absurd he (by decide)
    · intro hle; exact absurd h (not_lt.mpr hle)
  · next h => simp [not_lt.mp h]

/-! ### C1 -/

/-- A probe attempt where everything works and the beacon answers 204 after
a measured 9999.5 ms — well within the 10 s (10000 ms) request timeout. -/
def envSlowSuccess : AttemptEnv :=
  { readOk := true, inbounds := [], draw := 0, spawnOk := true,
    http := .resp 204 (19999 / 2), gracefulExit := true }

/-- C1: the claim "status == offline ⟺ delay_ms == 9999 and status ==
online ⟺ delay_ms < 9999 ∧ delay is the measured round trip" is false: a
successful probe (status code 204) measured at 9999.5 ms — possible under
the 10-second timeout — is stored with status "offline" and delay 9999.5,
not the sentinel 9999. -/
theorem C1_counterexample :
    ¬ (∀ (env : AttemptEnv) (ts : String),
        ((mk_result ts (test_single_config env).delay).status = "offline" ↔
          (test_single_config env).delay = 9999) ∧
        ((mk_result ts (test_single_config env).delay).status = "online" ↔
          (test_single_config env).delay < 9999)) := by
  intro h
  have hdelay : (test_single_config envSlowSuccess).delay = 19999 / 2 := by
    rw [delay_of_ok envSlowSuccess rfl rfl]
    simp [envSlowSuccess, probe_delay]
  have h1 := (h envSlowSuccess "t").1
  rw [hdelay] at h1
  have hoff : (mk_result "t" ((19999 : ℚ) / 2)).status = "offline" := by
    rw [status_offline_iff]
    norm_num
  have hbad := h1.mp hoff
  norm_num at hbad

/-- C1 (amended): status is "offline" iff delay ≥ 9999 and "online" iff
delay < 9999; when the single request succeeds with code 204/200 the delay
is the measured round trip (so a measured round trip ≥ 9999 ms is recorded
as "offline" with the measured value, not the sentinel). -/
theorem C1_amended (env : AttemptEnv) (ts : String) :
    ((mk_result ts (test_single_config env).delay).status = "offline" ↔
      9999 ≤ (test_single_config env).delay) ∧
    ((mk_result ts (test_single_config env).delay).status = "online" ↔
      (test_single_config env).delay < 9999) ∧
    (∀ code elapsedMs, env.readOk = true → env.spawnOk = true →
      env.http = HttpOutcome.resp code elapsedMs → (code = 204 ∨ code = 200) →
      (test_single_config env).delay = elapsedMs) := by
  refine ⟨status_offline_iff _ _, status_online_iff _ _, ?_⟩
  intro code elapsedMs h1 h2 hhttp hcode
  rw [delay_of_ok env h1 h2, hhttp]
  rcases hcode with hc | hc <;> subst hc <;> simp [probe_delay]

theorem C1_amended_witness :
    ((mk_result "t" (test_single_config envSlowSuccess).delay).status = "offline" ↔
      9999 ≤ (test_single_config envSlowSuccess).delay) ∧
    ((mk_result "t" (test_single_config envSlowSuccess).delay).status = "online" ↔
      (test_single_config envSlowSuccess).delay < 9999) ∧
    (test_single_config envSlowSuccess).delay = 19999 / 2 :=
  ⟨(C1_amended envSlowSuccess "t").1, (C1_amended envSlowSuccess "t").2.1,
    (C1_amended envSlowSuccess "t").2.2 204 (19999 / 2) rfl rfl rfl (Or.inl rfl)⟩

/-! ### C2 -/

/-- A probe attempt where the config parses but `subprocess.Popen` raises
(proxy binary missing): the scratch config file has already been written
and the outer exception handler returns 9999 without deleting it. -/
def envSpawnFail : AttemptEnv :=
  { readOk := true, inbounds := [], draw := 0, spawnOk := false,
    http := .exc, gracefulExit := true }

/-- C2: the claim "no exit path of the attempt leaves the process alive or
the scratch file present" is false: when `Popen` raises after the scratch
config was written, the outer `except` returns 9999 with the scratch file
still on disk (the terminate/unlink block is not a `finally`). -/
theorem C2_counterexample :
    ¬ (∀ env : AttemptEnv,
        (test_single_config env).procAlive = false ∧
        (test_single_config env).tmpExists = false) := by
  intro h
  exact absurd (h envSpawnFail).2 (by decide)

/-- C2 (amended): on every exit path the process ends up not alive, and the
scratch file is present after the attempt exactly when the config was read
but the process spawn raised; whenever the process was actually launched,
it is terminated (gracefully, or killed after the 5 s wait expires) and the
scratch file is deleted. -/
theorem C2_amended (env : AttemptEnv) :
    (test_single_config env).procAlive = false ∧
    ((test_single_config env).tmpExists = (env.readOk && !env.spawnOk)) ∧
    (env.readOk = true → env.spawnOk = true →
      ((env.gracefulExit = true ∧ Event.termGrace ∈ (test_single_config env).trace) ∨
        (env.gracefulExit = false ∧ Event.termKill ∈ (test_single_config env).trace)) ∧
      Event.tmpDelete ∈ (test_single_config env).trace) := by
  refine ⟨procAlive_false env, tmpExists_eq env, ?_⟩
  intro h1 h2
  rw [trace_of_ok env h1 h2]
  rcases hg : env.gracefulExit with _ | _
  · exact ⟨Or.inr ⟨rfl, by simp⟩, by simp⟩
  · exact ⟨Or.inl ⟨rfl, by simp⟩, by simp⟩

theorem C2_amended_witness :
    (test_single_config envSlowSuccess).procAlive = false ∧
    Event.termGrace ∈ (test_single_config envSlowSuccess).trace ∧
    Event.tmpDelete ∈ (test_single_config envSlowSuccess).trace := by
  have h := C2_amended envSlowSuccess
  have h3 := h.2.2 rfl rfl
  refine ⟨h.1, ?_, h3.2⟩
  rcases h3.1 with ⟨_, hm⟩ | ⟨hfalse, _⟩
  · exact hm
  · exact absurd hfalse (by decide)

/-! ### C3 -/

/-- A probe attempt where everything works and the beacon answers 204 after
a measured 9999.25 ms (within the 10 s timeout). -/
def envSlowSuccess2 : AttemptEnv :=
  { readOk := true, inbounds := [], draw := 0, spawnOk := true,
    http := .resp 204 (39997 / 4), gracefulExit := true }

/-- C3: the claim "if the response status code is in \x7b200, 204\x7d the
result is (measured delay, online)" is false: a 204 response measured at
9999.25 ms — possible under the 10-second timeout — yields the measured
delay but status "offline", because status is computed as `delay < 9999`. -/
theorem C3_counterexample :
    ¬ (∀ (env : AttemptEnv) (ts : String) (code : Nat) (elapsedMs : ℚ),
        env.http = HttpOutcome.resp code elapsedMs → (code = 204 ∨ code = 200) →
        env.readOk = true → env.spawnOk = true →
        (test_single_config env).delay = elapsedMs ∧
        (mk_result ts (test_single_config env).delay).status = "online") := by
  intro h
  have h2 := (h envSlowSuccess2 "t" 204 (39997 / 4) rfl (Or.inl rfl) rfl rfl).2
  rw [status_online_iff] at h2
  have hdelay : (test_single_config envSlowSuccess2).delay = 39997 / 4 := by
    rw [delay_of_ok envSlowSuccess2 rfl rfl]
    simp [envSlowSuccess2, probe_delay]
  rw [hdelay] at h2
  norm_num at h2

/-- C3 (amended): when the attempt reaches the probe stage it issues
exactly one HTTP request, to the fixed beacon URL through the allocated
SOCKS port, with a 10-second timeout and no retry; a 204/200 response
yields the measured delay, with status "online" exactly when that
measurement is below 9999 ms; any other status code or any
timeout/connection exception yields (9999, "offline") uniformly. -/
theorem C3_amended (env : AttemptEnv) (ts : String) :
    probe_timeout_s = 10 ∧
    (env.readOk = true → env.spawnOk = true →
      (test_single_config env).trace.countP (fun e => isProbeEvent e) = 1 ∧
      Event.probe (pick_test_port env.draw) beacon_url ∈ (test_single_config env).trace ∧
      (∀ code elapsedMs, env.http = HttpOutcome.resp code elapsedMs →
        (code = 204 ∨ code = 200) →
        (test_single_config env).delay = elapsedMs ∧
        ((mk_result ts (test_single_config env).delay).status = "online" ↔
          elapsedMs < 9999)) ∧
      (∀ code elapsedMs, env.http = HttpOutcome.resp code elapsedMs →
        ¬(code = 204 ∨ code = 200) →
        (test_single_config env).delay = 9999 ∧
        (mk_result ts (test_single_config env).delay).status = "offline") ∧
      (env.http = HttpOutcome.exc →
        (test_single_config env).delay = 9999 ∧
        (mk_result ts (test_single_config env).delay).status = "offline")) := by
  refine ⟨rfl, ?_⟩
  intro h1 h2
  have htr := trace_of_ok env h1 h2
  refine ⟨?_, ?_, ?_, ?_, ?_⟩
  · rw [htr]
    rcases env.gracefulExit with _ | _ <;>
      simp [List.countP_cons, isProbeEvent]
  · rw [htr]
    rcases env.gracefulExit with _ | _ <;> simp
  · intro code elapsedMs hhttp hcode
    have hd : (test_single_config env).delay = elapsedMs := by
      rw [delay_of_ok env h1 h2, hhttp]
      rcases hcode with hc | hc <;> subst hc <;> simp [probe_delay]
    exact ⟨hd, by rw [hd, status_online_iff]⟩
  · intro code elapsedMs hhttp hcode
    have hd : (test_single_config env).delay = 9999 := by
      rw [delay_of_ok env h1 h2, hhttp]
      simp only [probe_delay, if_neg hcode]
    exact ⟨hd, by rw [hd, status_offline_iff]⟩
  · intro hhttp
    have hd : (test_single_config env).delay = 9999 := by
      rw [delay_of_ok env h1 h2, hhttp]
      rfl
    exact ⟨hd, by rw [hd, status_offline_iff]⟩

theorem C3_amended_witness :
    probe_timeout_s = 10 ∧
    (test_single_config envSlowSuccess2).trace.countP (fun e => isProbeEvent e) = 1 ∧
    (test_single_config envSlowSuccess2).delay = 39997 / 4 := by
  have h := (C3_amended envSlowSuccess2 "t").2 rfl rfl
  exact ⟨(C3_amended envSlowSuccess2 "t").1, h.1,
    (h.2.2.1 204 (39997 / 4) rfl (Or.inl rfl)).1⟩

/-! ### C5 -/

/-- A fully successful probe attempt (config parses, process spawns, probe
answers 204 quickly). -/
def envAllOk : AttemptEnv :=
  { readOk := true, inbounds := [Inbound.mk "socks" 1080, Inbound.mk "api" 8080],
    draw := 0, spawnOk := true, http := .resp 204 50, gracefulExit := true }

/-- C5: the claim that port allocation verifies the pair's availability by a
bind-and-release probe, retries on collision up to a cap, and fails with
PortBindError when exhausted, is false: the code draws a single
`random.randint(20000, 30000)` and proceeds to launch the process no matter
what the OS port state is — here, even when every port is unavailable, the
launch still happens. -/
theorem C5_counterexample :
    ¬ (∀ (env : AttemptEnv) (portAvailable : Nat → Bool),
        (∀ p, portAvailable p = false) →
        Event.launch (pick_test_port env.draw) ∉ (test_single_config env).trace) := by
  intro h
  exact h envAllOk (fun _ => false) (fun _ => rfl) (by decide)

/-- C5 (amended): port selection draws one base port, landing in
20000–30000 inclusive, pairs it with base+1 (the `socks` inbound gets the
base, the `api` inbound gets base+1), performs no availability check and no
retry, and never fails: whenever the config was read and the spawn
succeeds, the process is launched on the drawn port unconditionally. -/
theorem C5_amended (env : AttemptEnv) (h1 : env.readOk = true)
    (h2 : env.spawnOk = true) :
    20000 ≤ pick_test_port env.draw ∧ pick_test_port env.draw ≤ 30000 ∧
    Event.launch (pick_test_port env.draw) ∈ (test_single_config env).trace ∧
    (∀ ib, ib ∈ env.inbounds → ib.tag = "socks" →
      { ib with port := pick_test_port env.draw } ∈
        patch_inbounds env.inbounds (pick_test_port env.draw)) ∧
    (∀ ib, ib ∈ env.inbounds → ib.tag = "api" →
      { ib with port := pick_test_port env.draw + 1 } ∈
        patch_inbounds env.inbounds (pick_test_port env.draw)) := by
  have hle : env.draw % 10001 ≤ 10000 :=
    Nat.le_of_lt_succ (Nat.mod_lt _ (by norm_num))
  refine ⟨by simp [pick_test_port], by simp [pick_test_port]; omega, ?_, ?_, ?_⟩
  · rw [trace_of_ok env h1 h2]
    rcases env.gracefulExit with _ | _ <;> simp
  · intro ib hmem htag
    simp only [patch_inbounds, List.mem_map]
    exact ⟨ib, hmem, by simp [htag]⟩
  · intro ib hmem htag
    simp only [patch_inbounds, List.mem_map]
    refine ⟨ib, hmem, ?_⟩
    have : ¬ ib.tag = "socks" := by rw [htag]; decide
    simp [htag, this]

theorem C5_amended_witness :
    20000 ≤ pick_test_port envAllOk.draw ∧ pick_test_port envAllOk.draw ≤ 30000 ∧
    Event.launch (pick_test_port envAllOk.draw) ∈ (test_single_config envAllOk).trace ∧
    Inbound.mk "socks" (pick_test_port envAllOk.draw) ∈
      patch_inbounds envAllOk.inbounds (pick_test_port envAllOk.draw) ∧
    Inbound.mk "api" (pick_test_port envAllOk.draw + 1) ∈
      patch_inbounds envAllOk.inbounds (pick_test_port envAllOk.draw) := by
  have h := C5_amended envAllOk rfl rfl
  exact ⟨h.1, h.2.1, h.2.2.1,
    h.2.2.2.1 (Inbound.mk "socks" 1080) (by simp [envAllOk]) rfl,
    h.2.2.2.2 (Inbound.mk "api" 8080) (by simp [envAllOk]) rfl⟩

/-! ### Store lemmas -/

theorem lookupStore_upsert (st : Store) (k k' : String) (v : ProbeResult) :
    lookupStore (upsert st k v) k' = if k = k' then some v else lookupStore st k' := by
  induction st with
  | nil => simp [upsert, lookupStore]
  | cons p rest ih =>
    simp only [upsert]
    by_cases hp : p.1 = k
    · rw [if_pos hp]
      by_cases hk : k = k'
      · simp [lookupStore, hk]
      · have hp' : ¬ p.1 = k' := by rw [hp]; exact hk
        simp [lookupStore, hk, hp']
    · rw [if_neg hp]
      by_cases hpk : p.1 = k'
      · have hk : ¬ k = k' := fun h => hp (h ▸ hpk)
        simp [lookupStore, hpk, hk]
      · simp [lookupStore, hpk, ih]

theorem mem_keys_upsert (st : Store) (k : String) (v : ProbeResult) (a : String) :
    a ∈ (upsert st k v).map Prod.fst ↔ a ∈ st.map Prod.fst ∨ a = k := by
  induction st with
  | nil => simp [upsert]
  | cons p rest ih =>
    by_cases hp : p.1 = k
    · have hu : upsert (p :: rest) k v = (k, v) :: rest := by
        simp [upsert, hp]
      rw [hu]
      simp only [List.map_cons, List.mem_cons, hp]
      tauto
    · have hu : upsert (p :: rest) k v = p :: upsert rest k v := by
        simp [upsert, hp]
      rw [hu]
      simp only [List.map_cons, List.mem_cons, ih]
      tauto

theorem keys_nodup_upsert (st : Store) (k : String) (v : ProbeResult)
    (h : (st.map Prod.fst).Nodup) : ((upsert st k v).map Prod.fst).Nodup := by
  induction st with
  | nil => simp [upsert]
  | cons p rest ih =>
    rw [List.map_cons, List.nodup_cons] at h
    by_cases hp : p.1 = k
    · simp only [upsert, if_pos hp, List.map_cons, List.nodup_cons]
      exact ⟨hp ▸ h.1, h.2⟩
    · simp only [upsert, if_neg hp, List.map_cons, List.nodup_cons]
      refine ⟨?_, ih h.2⟩
      rw [mem_keys_upsert]
      rintro (hm | hm)
      · exact h.1 hm
      · exact hp hm

theorem length_upsert_le (st : Store) (k : String) (v : ProbeResult) :
    (upsert st k v).length ≤ st.length + 1 := by
  induction st with
  | nil => simp [upsert]
  | cons p rest ih =>
    by_cases hp : p.1 = k
    · simp only [upsert, if_pos hp, List.length_cons]
      omega
    · simp only [upsert, if_neg hp, List.length_cons]
      omega

theorem lookupStore_isSome_iff (st : Store) (a : String) :
    (lookupStore st a).isSome = true ↔ a ∈ st.map Prod.fst := by
  induction st with
  | nil => simp [lookupStore]
  | cons p rest ih =>
    by_cases hp : p.1 = a
    · simp [lookupStore, hp]
    · simp [lookupStore, hp, Ne.symm hp, ih]

/-! ### Sweep-loop lemmas -/

theorem keys_mono_run_go (ts : String) (entries : List SweepEntry) (st : SweepState)
    (a : String) (h : a ∈ st.results.map Prod.fst) :
    a ∈ (run_tests_go ts entries st).results.map Prod.fst := by
  induction entries generalizing st with
  | nil => simpa [run_tests_go] using h
  | cons e rest ih =>
    cases hf : e.fileExists
    · simp only [run_tests_go, hf]
      exact ih st h
    · simp only [run_tests_go, hf]
      simp only [Bool.true_eq_false, if_false]
      exact ih _ ((mem_keys_upsert _ _ _ _).mpr (Or.inl h))

theorem name_recorded_run_go (ts : String) (entries : List SweepEntry) (st : SweepState)
    (e : SweepEntry) (he : e ∈ entries) (hf : e.fileExists = true) :
    e.name ∈ (run_tests_go ts entries st).results.map Prod.fst := by
  induction entries generalizing st with
  | nil => cases he
  | cons e' rest ih =>
    rcases List.mem_cons.mp he with he' | he'
    · subst he'
      simp only [run_tests_go, hf, Bool.true_eq_false, if_false]
      exact keys_mono_run_go ts rest _ _ ((mem_keys_upsert _ _ _ _).mpr (Or.inr rfl))
    · cases hf' : e'.fileExists
      · simp only [run_tests_go, hf']
        exact ih st he'
      · simp only [run_tests_go, hf', Bool.true_eq_false, if_false]
        exact ih _ he'

/-! ### C4 -/

/-- A manifest entry whose `config_{id}.json` file is missing on disk. -/
def entryMissing : SweepEntry :=
  { id := "config_0", name := "cfgA", fileExists := false,
    env := envAllOk, persistOk := true }

/-- C4: the claim that *every* per-entry error — including a missing config
file — results in an offline ProbeResult being recorded for the entry is
false: a missing config file hits `continue` (monitor.py lines 308-310) and
the sweep records nothing at all for that entry. -/
theorem C4_counterexample :
    ¬ (∀ (ts : String) (entries : List SweepEntry) (e : SweepEntry),
        e ∈ entries →
        (lookupStore (run_tests ts entries initState).results e.name).isSome = true) := by
  intro h
  have hm := h "t" [entryMissing] entryMissing (by simp)
  simp [run_tests, run_tests_go, entryMissing, initState, lookupStore] at hm

/-- C4 (amended): every per-entry error raised *inside a probe attempt*
(unreadable config file, spawn failure, probe timeout or connection
failure) is caught and degrades to an offline ProbeResult with delay 9999,
recorded under the entry's name, and the sweep continues; but an entry
whose config file does not exist is skipped with only a log warning — no
result at all is recorded for it. -/
theorem C4_amended (ts : String) (entries : List SweepEntry) (st : SweepState) :
    (∀ e ∈ entries, e.fileExists = true →
      (lookupStore (run_tests ts entries st).results e.name).isSome = true) ∧
    (∀ env : AttemptEnv,
      env.readOk = false ∨ env.spawnOk = false ∨ env.http = HttpOutcome.exc →
      (test_single_config env).delay = 9999 ∧
      (mk_result ts (test_single_config env).delay).status = "offline") := by
  constructor
  · intro e he hf
    rw [lookupStore_isSome_iff]
    exact name_recorded_run_go ts entries st e he hf
  · intro env herr
    have hd : (test_single_config env).delay = 9999 := by
      rcases herr with h | h | h
      · exact delay_of_fail env (Or.inl h)
      · exact delay_of_fail env (Or.inr h)
      · cases h1 : env.readOk
        · exact delay_of_fail env (Or.inl h1)
        · cases h2 : env.spawnOk
          · exact delay_of_fail env (Or.inr h2)
          · rw [delay_of_ok env h1 h2, h]
            rfl
    exact ⟨hd, by rw [hd, status_offline_iff]⟩

theorem C4_amended_witness :
    entryMissing ∈ [entryMissing] ∧
    (lookupStore (run_tests "t" [entryMissing] initState).results
        entryMissing.name).isSome = false ∧
    (test_single_config envSpawnFail).delay = 9999 ∧
    (mk_result "t" (test_single_config envSpawnFail).delay).status = "offline" := by
  refine ⟨by simp, by decide, ?_⟩
  exact (C4_amended "t" [] initState).2 envSpawnFail (Or.inr (Or.inl rfl))

/-! ### C6 -/

theorem save_results_append (ts : String) (r : Store) (b : Bool)
    (snaps : List Snapshot) :
    save_results ts r b snaps =
      snaps ++ (if b then
        [{ last_update := ts, total_configs := r.length, results := r }] else []) := by
  cases b <;> simp [save_results]

/-- The snapshot shape maintained by the sweep: fresh timestamp,
`total_configs` equal to the size of the result map, unique keys, every key
a manifest name. -/
def goodSnap (ts : String) (allNames : List String) (sn : Snapshot) : Prop :=
  sn.last_update = ts ∧ sn.total_configs = sn.results.length ∧
  (sn.results.map Prod.fst).Nodup ∧ ∀ a ∈ sn.results.map Prod.fst, a ∈ allNames

theorem run_go_snap_inv (ts : String) (allNames : List String)
    (entries : List SweepEntry) :
    ∀ (st : SweepState),
      (∀ e ∈ entries, e.name ∈ allNames) →
      (st.results.map Prod.fst).Nodup →
      (∀ a ∈ st.results.map Prod.fst, a ∈ allNames) →
      (∀ sn ∈ st.snapshots, goodSnap ts allNames sn) →
      ((run_tests_go ts entries st).results.map Prod.fst).Nodup ∧
      (∀ a ∈ (run_tests_go ts entries st).results.map Prod.fst, a ∈ allNames) ∧
      (∀ sn ∈ (run_tests_go ts entries st).snapshots, goodSnap ts allNames sn) := by
  induction entries with
  | nil =>
    intro st _ h1 h2 h3
    simp only [run_tests_go]
    exact ⟨h1, h2, h3⟩
  | cons e rest ih =>
    intro st hnames h1 h2 h3
    have hnames' : ∀ e' ∈ rest, e'.name ∈ allNames :=
      fun e' he' => hnames e' (List.mem_cons_of_mem _ he')
    cases hf : e.fileExists
    · simp only [run_tests_go, hf]
      exact ih st hnames' h1 h2 h3
    · simp only [run_tests_go, hf, Bool.true_eq_false, if_false]
      have hen : e.name ∈ allNames := hnames e (List.mem_cons_self _ _)
      have hsubKeys : ∀ a ∈ (upsert st.results e.name
          (mk_result ts (test_single_config e.env).delay)).map Prod.fst, a ∈ allNames := by
        intro a ha
        rcases (mem_keys_upsert _ _ _ _).mp ha with h | h
        · exact h2 a h
        · exact h ▸ hen
      apply ih _ hnames' (keys_nodup_upsert _ _ _ h1) hsubKeys
      intro sn hsn
      rw [save_results_append] at hsn
      rcases List.mem_append.mp hsn with h | h
      · exact h3 sn h
      · cases hp : e.persistOk
        · rw [hp] at h
          simp at h
        · rw [hp] at h
          simp only [if_true] at h
          rw [List.mem_singleton] at h
          subst h
          exact ⟨rfl, rfl, keys_nodup_upsert _ _ _ h1, hsubKeys⟩

theorem run_sweeps_snap_inv (ts : String) (entries : List SweepEntry) :
    ∀ (n : Nat) (st : SweepState),
      (st.results.map Prod.fst).Nodup →
      (∀ a ∈ st.results.map Prod.fst, a ∈ entries.map SweepEntry.name) →
      (∀ sn ∈ st.snapshots, goodSnap ts (entries.map SweepEntry.name) sn) →
      ((run_sweeps ts entries n st).results.map Prod.fst).Nodup ∧
      (∀ a ∈ (run_sweeps ts entries n st).results.map Prod.fst,
        a ∈ entries.map SweepEntry.name) ∧
      (∀ sn ∈ (run_sweeps ts entries n st).snapshots,
        goodSnap ts (entries.map SweepEntry.name) sn)
  | 0, st, h1, h2, h3 => by
    simp only [run_sweeps]
    exact ⟨h1, h2, h3⟩
  | n + 1, st, h1, h2, h3 => by
    simp only [run_sweeps]
    have step := run_go_snap_inv ts (entries.map SweepEntry.name) entries st
      (fun e' he' => List.mem_map.mpr ⟨e', he', rfl⟩) h1 h2 h3
    exact run_sweeps_snap_inv ts entries n _ step.1 step.2.1 step.2.2

/-- C6: every snapshot persisted over any number of sweeps of the manifest,
starting from the fresh tester state, carries a `last_update` timestamp and
a `total_configs` equal to the number of entries of its `results` map; the
map holds exactly one result per name (keys are unique, each key a manifest
name), and its size is at most the number N of manifest entries. -/
theorem C6_snapshot_invariant (ts : String) (entries : List SweepEntry) (n : Nat) :
    ∀ sn ∈ (run_sweeps ts entries n initState).snapshots,
      sn.last_update = ts ∧
      sn.total_configs = sn.results.length ∧
      (sn.results.map Prod.fst).Nodup ∧
      (∀ a ∈ sn.results.map Prod.fst, a ∈ entries.map SweepEntry.name) ∧
      sn.results.length ≤ entries.length := by
  intro sn hsn
  have main := run_sweeps_snap_inv ts entries n initState
    (by simp [initState]) (by simp [initState]) (by simp [initState])
  have g := main.2.2 sn hsn
  refine ⟨g.1, g.2.1, g.2.2.1, g.2.2.2, ?_⟩
  have hlen := (g.2.2.1.subperm (fun a ha => g.2.2.2 a ha)).length_le
  simpa using hlen

/-- A manifest entry whose config file exists and whose probe attempt fully
succeeds with a 50 ms round trip. -/
def entryOk : SweepEntry :=
  { id := "config_0", name := "cfgA", fileExists := true,
    env := envAllOk, persistOk := true }

/-- The single snapshot persisted by one sweep over `[entryOk]`. -/
def snapA : Snapshot :=
  { last_update := "t", total_configs := 1,
    results := [("cfgA", mk_result "t" 50)] }

theorem C6_snapshot_invariant_witness :
    snapA ∈ (run_sweeps "t" [entryOk] 1 initState).snapshots ∧
    snapA.total_configs = snapA.results.length ∧
    snapA.results.length ≤ [entryOk].length := by
  have hmem : snapA ∈ (run_sweeps "t" [entryOk] 1 initState).snapshots := by decide
  have h := C6_snapshot_invariant "t" [entryOk] 1 snapA hmem
  exact ⟨hmem, h.2.1, h.2.2.2.2⟩

/-! ### C7 -/

theorem snapshots_mono_run_go (ts : String) (entries : List SweepEntry) :
    ∀ st : SweepState, ∃ tail,
      (run_tests_go ts entries st).snapshots = st.snapshots ++ tail := by
  induction entries with
  | nil =>
    intro st
    exact ⟨[], by simp [run_tests_go]⟩
  | cons e rest ih =>
    intro st
    cases hf : e.fileExists
    · simp only [run_tests_go, hf]
      exact ih st
    · simp only [run_tests_go, hf, Bool.true_eq_false, if_false]
      obtain ⟨tail, htail⟩ := ih
        { results := upsert st.results e.name (mk_result ts (test_single_config e.env).delay)
          snapshots := save_results ts
            (upsert st.results e.name (mk_result ts (test_single_config e.env).delay))
            e.persistOk st.snapshots
          trace := st.trace ++ (test_single_config e.env).trace }
      rw [htail, save_results_append, List.append_assoc]
      exact ⟨_, rfl⟩

theorem run_go_persist_independent (ts : String) (b : Bool) (entries : List SweepEntry) :
    ∀ st st' : SweepState, st.results = st'.results → st.trace = st'.trace →
      (run_tests_go ts (entries.map fun x => { x with persistOk := b }) st).results =
          (run_tests_go ts entries st').results ∧
      (run_tests_go ts (entries.map fun x => { x with persistOk := b }) st).trace =
          (run_tests_go ts entries st').trace := by
  induction entries with
  | nil =>
    intro st st' h1 h2
    simp only [List.map_nil, run_tests_go]
    exact ⟨h1, h2⟩
  | cons e rest ih =>
    intro st st' h1 h2
    simp only [List.map_cons]
    cases hf : e.fileExists
    · simp only [run_tests_go, hf]
      exact ih st st' h1 h2
    · simp only [run_tests_go, hf, Bool.true_eq_false, if_false]
      apply ih
      · simp [h1]
      · simp [h2]

/-- C7: after every single probe attempt whose snapshot write succeeds, the
full current result map plus metadata is persisted at once — the snapshot
appears in the history directly after the attempt, before any later entry
runs, and survives to the end of the sweep; and a persistence failure is
swallowed: forcing every entry's `persistOk` flag to any value changes
neither the stored results nor the probe event trace of the sweep, so no
subsequent probe is prevented from running. -/
theorem C7_persist_every_probe (ts : String) (e : SweepEntry)
    (rest : List SweepEntry) (st : SweepState)
    (hf : e.fileExists = true) (hp : e.persistOk = true) :
    (∃ tail,
      (run_tests_go ts (e :: rest) st).snapshots =
        st.snapshots ++
          ({ last_update := ts
             total_configs := (upsert st.results e.name
               (mk_result ts (test_single_config e.env).delay)).length
             results := upsert st.results e.name
               (mk_result ts (test_single_config e.env).delay) } :: tail)) ∧
    (∀ (entries : List SweepEntry) (b : Bool) (st₀ : SweepState),
      (run_tests_go ts (entries.map fun x => { x with persistOk := b }) st₀).results =
          (run_tests_go ts entries st₀).results ∧
      (run_tests_go ts (entries.map fun x => { x with persistOk := b }) st₀).trace =
          (run_tests_go ts entries st₀).trace) := by
  constructor
  · simp only [run_tests_go, hf, Bool.true_eq_false, if_false]
    obtain ⟨tail, htail⟩ := snapshots_mono_run_go ts rest
      { results := upsert st.results e.name (mk_result ts (test_single_config e.env).delay)
        snapshots := save_results ts
          (upsert st.results e.name (mk_result ts (test_single_config e.env).delay))
          e.persistOk st.snapshots
        trace := st.trace ++ (test_single_config e.env).trace }
    rw [htail, save_results_append, hp]
    simp only [if_true]
    exact ⟨tail, by rw [List.append_assoc]; rfl⟩
  · exact fun entries b st₀ => run_go_persist_independent ts b entries st₀ st₀ rfl rfl

theorem C7_persist_every_probe_witness :
    entryOk.fileExists = true ∧ entryOk.persistOk = true ∧
    (∃ tail,
      (run_tests_go "t" [entryOk] initState).snapshots =
        initState.snapshots ++
          ({ last_update := "t"
             total_configs := (upsert initState.results entryOk.name
               (mk_result "t" (test_single_config entryOk.env).delay)).length
             results := upsert initState.results entryOk.name
               (mk_result "t" (test_single_config entryOk.env).delay) } :: tail)) := by
  have h := C7_persist_every_probe "t" entryOk [] initState rfl rfl
  exact ⟨rfl, rfl, h.1⟩

/-! ### C10 -/

/-- The last entry of the manifest, in sweep order, that carries the given
name and whose config file exists — i.e. the last entry actually probed
under this name. -/
def lastProbed : List SweepEntry → String → Option SweepEntry
  | [], _ => none
  | e :: rest, name =>
    match lastProbed rest name with
    | some e' => some e'
    | none => if e.fileExists && e.name = name then some e else none

theorem lookup_run_go (ts : String) (entries : List SweepEntry) :
    ∀ (st : SweepState) (name : String),
      lookupStore (run_tests_go ts entries st).results name =
        match lastProbed entries name with
        | some e => some (mk_result ts (test_single_config e.env).delay)
        | none => lookupStore st.results name := by
  induction entries with
  | nil =>
    intro st name
    simp [run_tests_go, lastProbed]
  | cons e rest ih =>
    intro st name
    cases hf : e.fileExists
    · have hg : run_tests_go ts (e :: rest) st = run_tests_go ts rest st := by
        simp [run_tests_go, hf]
      have hl : lastProbed (e :: rest) name = lastProbed rest name := by
        simp only [lastProbed]
        cases hlp : lastProbed rest name
        · simp [hf]
        · simp
      rw [hg, hl, ih st name]
    · have hg : run_tests_go ts (e :: rest) st =
          run_tests_go ts rest
            { results := upsert st.results e.name
                (mk_result ts (test_single_config e.env).delay)
              snapshots := save_results ts
                (upsert st.results e.name (mk_result ts (test_single_config e.env).delay))
                e.persistOk st.snapshots
              trace := st.trace ++ (test_single_config e.env).trace } := by
        simp [run_tests_go, hf]
      rw [hg, ih _ name]
      simp only [lastProbed]
      cases hlp : lastProbed rest name
      · by_cases hn : e.name = name <;>
          simp [hlp, hf, hn, lookupStore_upsert]
      · simp [hlp]

/-- A second manifest entry sharing `entryOk`'s display name but with a
spawn-failing attempt (delay 9999). -/
def entryDup : SweepEntry :=
  { id := "config_1", name := "cfgA", fileExists := true,
    env := envSpawnFail, persistOk := true }

/-- C10: result storage is last-writer-wins on the stored name: after a
sweep from the fresh state, looking up a name yields exactly the result of
the last probed entry bearing that name (and nothing when no such entry was
probed); the store never holds two entries for one name; and duplicate
names make the store strictly smaller than the manifest, witnessed by a
concrete two-entry sweep. -/
theorem C10_last_writer_wins (ts : String) (entries : List SweepEntry) (name : String) :
    (∀ e, lastProbed entries name = some e →
      lookupStore (run_tests ts entries initState).results name =
        some (mk_result ts (test_single_config e.env).delay)) ∧
    (lastProbed entries name = none →
      lookupStore (run_tests ts entries initState).results name = none) ∧
    ((run_tests ts entries initState).results.map Prod.fst).Nodup ∧
    (∃ dup : List SweepEntry,
      (run_tests ts dup initState).results.length < dup.length) := by
  refine ⟨?_, ?_, ?_, ?_⟩
  · intro e he
    simp only [run_tests]
    rw [lookup_run_go ts entries initState name, he]
  · intro he
    simp only [run_tests]
    rw [lookup_run_go ts entries initState name, he]
    simp [initState, lookupStore]
  · have h := run_go_snap_inv ts (entries.map SweepEntry.name) entries initState
      (fun e' he' => List.mem_map.mpr ⟨e', he', rfl⟩) (by simp [initState])
      (by simp [initState]) (by simp [initState])
    exact h.1
  · refine ⟨[entryOk, entryDup], ?_⟩
    simp [run_tests, run_tests_go, initState, upsert, entryOk, entryDup, save_results]

theorem C10_last_writer_wins_witness :
    lastProbed [entryOk, entryDup] "cfgA" = some entryDup ∧
    lookupStore (run_tests "t" [entryOk, entryDup] initState).results "cfgA" =
      some (mk_result "t" (test_single_config entryDup.env).delay) ∧
    (run_tests "t" [entryOk, entryDup] initState).results.length <
      [entryOk, entryDup].length := by
  have hlp : lastProbed [entryOk, entryDup] "cfgA" = some entryDup := by decide
  exact ⟨hlp,
    (C10_last_writer_wins "t" [entryOk, entryDup] "cfgA").1 entryDup hlp,
    by decide⟩

/-! ### C8 -/

/-- Net effect of one event on the number of live child processes. -/
def eventStep (n : Nat) (e : Event) : Nat :=
  if isLaunchEvent e then n + 1 else if isTermEvent e then n - 1 else n

/-- Number of live child processes after a trace, starting from `n`. -/
def aliveAfter : Nat → List Event → Nat
  | n, [] => n
  | n, e :: rest => aliveAfter (eventStep n e) rest

/-- Checks that, starting from `n` live processes, the number of live
processes never exceeds one anywhere along the trace. -/
def seqCheck : Nat → List Event → Bool
  | _, [] => true
  | n, e :: rest => decide (eventStep n e ≤ 1) && seqCheck (eventStep n e) rest

theorem aliveAfter_append (a b : List Event) :
    ∀ n, aliveAfter n (a ++ b) = aliveAfter (aliveAfter n a) b := by
  induction a with
  | nil => intro n; rfl
  | cons e rest ih =>
    intro n
    simp only [List.cons_append, aliveAfter]
    exact ih _

theorem seqCheck_append (a b : List Event) :
    ∀ n, seqCheck n (a ++ b) = (seqCheck n a && seqCheck (aliveAfter n a) b) := by
  induction a with
  | nil => intro n; simp [seqCheck, aliveAfter]
  | cons e rest ih =>
    intro n
    simp only [List.cons_append, seqCheck, aliveAfter, List.append_eq, ih, Bool.and_assoc]

theorem attempt_trace_seq (env : AttemptEnv) :
    seqCheck 0 (test_single_config env).trace = true ∧
    aliveAfter 0 (test_single_config env).trace = 0 := by
  rcases env with ⟨ro, ib, d, so, http, g⟩
  cases ro <;> cases so <;> cases g <;>
    simp [test_single_config, seqCheck, aliveAfter, eventStep,
      isLaunchEvent, isTermEvent]

theorem run_go_trace_seq (ts : String) (entries : List SweepEntry) :
    ∀ st : SweepState,
      seqCheck 0 st.trace = true → aliveAfter 0 st.trace = 0 →
      seqCheck 0 (run_tests_go ts entries st).trace = true ∧
      aliveAfter 0 (run_tests_go ts entries st).trace = 0 := by
  induction entries with
  | nil =>
    intro st h1 h2
    simp only [run_tests_go]
    exact ⟨h1, h2⟩
  | cons e rest ih =>
    intro st h1 h2
    cases hf : e.fileExists
    · simp only [run_tests_go, hf]
      exact ih st h1 h2
    · simp only [run_tests_go, hf, Bool.true_eq_false, if_false]
      apply ih
      · show seqCheck 0 (st.trace ++ (test_single_config e.env).trace) = true
        rw [seqCheck_append, h1, h2, (attempt_trace_seq e.env).1]
        rfl
      · show aliveAfter 0 (st.trace ++ (test_single_config e.env).trace) = 0
        rw [aliveAfter_append, h2, (attempt_trace_seq e.env).2]

theorem seqCheck_alive_le (tr : List Event) :
    ∀ n, n ≤ 1 → seqCheck n tr = true → aliveAfter n tr ≤ 1 := by
  induction tr with
  | nil =>
    intro n h _
    simpa [aliveAfter] using h
  | cons e rest ih =>
    intro n _ hc
    simp only [seqCheck, Bool.and_eq_true, decide_eq_true_eq] at hc
    simp only [aliveAfter]
    exact ih _ hc.1 hc.2

/-- C8: probe attempts run strictly sequentially: along the event trace of
a whole sweep from the fresh state, the number of launched-but-not-yet-
terminated child proxy processes never exceeds one — after every prefix of
the trace at most one process is alive, so a launch for one entry never
precedes the termination of the previous entry's process. -/
theorem C8_sequential (ts : String) (entries : List SweepEntry) :
    seqCheck 0 (run_tests ts entries initState).trace = true ∧
    ∀ pre suf, (run_tests ts entries initState).trace = pre ++ suf →
      aliveAfter 0 pre ≤ 1 := by
  have h := run_go_trace_seq ts entries initState (by decide) (by decide)
  refine ⟨h.1, ?_⟩
  intro pre suf hsplit
  have hc := h.1
  rw [run_tests] at hsplit
  rw [hsplit, seqCheck_append] at hc
  have hpre : seqCheck 0 pre = true := (Bool.and_eq_true _ _).mp hc |>.1
  exact seqCheck_alive_le pre 0 (by norm_num) hpre

theorem C8_sequential_witness :
    (run_tests "t" [entryOk] initState).trace =
      [Event.tmpWrite, Event.launch 20000] ++
        [Event.probe 20000 beacon_url, Event.termGrace, Event.tmpDelete] ∧
    aliveAfter 0 [Event.tmpWrite, Event.launch 20000] ≤ 1 := by
  have hsplit : (run_tests "t" [entryOk] initState).trace =
      [Event.tmpWrite, Event.launch 20000] ++
        [Event.probe 20000 beacon_url, Event.termGrace, Event.tmpDelete] := by
    decide
  exact ⟨hsplit, (C8_sequential "t" [entryOk]).2 _ _ hsplit⟩

/-! ### C9 -/

theorem sleep_ticks_le_budget (running : Nat → Bool) :
    ∀ (n t : Nat), sleep_ticks n t running ≤ n
  | 0, _ => Nat.le_refl 0
  | n + 1, t => by
    simp only [sleep_ticks]
    split
    · exact Nat.succ_le_succ (sleep_ticks_le_budget running n (t + 1))
    · exact Nat.zero_le _

theorem sleep_ticks_stop_bound (running : Nat → Bool) (s : Nat)
    (hstop : ∀ u, s < u → running u = false) :
    ∀ (n t : Nat), sleep_ticks n t running ≤ s + 1 - t
  | 0, t => Nat.zero_le _
  | n + 1, t => by
    simp only [sleep_ticks]
    split
    · next hr =>
      have ht : t ≤ s := by
        by_contra hgt
        have hfalse := hstop t (Nat.lt_of_not_le hgt)
        rw [hfalse] at hr
        exact Bool.false_ne_true hr
      have hrec := sleep_ticks_stop_bound running s hstop n (t + 1)
      omega
    · exact Nat.zero_le _

/-- C9: if a stop request flips `self.running` so that it reads false at
every check after index `s` (the request landed during the s-th one-second
sleep tick, or earlier), the sleep-and-check loop of `_run_loop` sleeps at
most `s + 1` ticks in total — at most one further full 1-second tick after
the request — and never more than the configured interval, for any
configured interval. -/
theorem C9_stop_within_one_tick (interval s : Nat) (running : Nat → Bool)
    (hstop : ∀ u, s < u → running u = false) :
    sleep_ticks interval 0 running ≤ s + 1 ∧
    sleep_ticks interval 0 running ≤ interval := by
  constructor
  · simpa using sleep_ticks_stop_bound running s hstop interval 0
  · exact sleep_ticks_le_budget running interval 0

theorem C9_stop_within_one_tick_witness :
    (∀ u, 5 < u → (fun t => decide (t ≤ 5)) u = false) ∧
    sleep_ticks 300 0 (fun t => decide (t ≤ 5)) ≤ 6 ∧
    sleep_ticks 300 0 (fun t => decide (t ≤ 5)) ≤ 300 := by
  have hstop : ∀ u, 5 < u → (fun t => decide (t ≤ 5)) u = false := by
    intro u hu
    simp only [decide_eq_false_iff_not]
    omega
  exact ⟨hstop, (C9_stop_within_one_tick 300 5 _ hstop).1,
    (C9_stop_within_one_tick 300 5 _ hstop).2⟩

end XrayPulse
